/-
Verification of the PM212 audit pipeline (ODTE repository):
a shallow embedding of `audit/pm212_audit.py` and
`audit/runAgentAudit/pm212_prepaper_agent.py` in Lean 4, with theorems
settling the spec claims about the guardrail state machine, quote matcher,
slippage stress analysis, trade normalization and decision engine.

Modelling conventions:
* Python floats are modelled as rationals (ℚ); all float literals in the
  scripts (300, 1e-6, 0.05, ...) are exact rationals.
* A SQLite cell is a `SqlVal` (NULL, a number, or a text value); a column
  that the schema resolver did not resolve is `Option.none` one level up.
* A Python expression that can raise (float() on a non-numeric string,
  arithmetic on a string) is embedded in `Option`: `none` means the run
  aborts with an uncaught exception.
-/
import Mathlib

/-- A value stored in a SQLite cell: NULL, a number, or a text value. -/
inductive SqlVal where
  | null : SqlVal
  | num : ℚ → SqlVal
  | str : String → SqlVal
deriving DecidableEq

/-- Python truthiness of a cell value: `None`, `0` and `""` are falsy. -/
def SqlVal.truthy : SqlVal → Bool
  | SqlVal.null => false
  | SqlVal.num q => q != 0
  | SqlVal.str s => s != ""

/-- Digit list to natural number, most significant first. -/
def digitsToNat (cs : List Char) : Nat :=
  cs.foldl (fun n c => n * 10 + (c.toNat - 48)) 0

/-- Strip a leading sign; returns (isNegative, rest). -/
def splitSign : List Char → Bool × List Char
  | '-' :: rest => (true, rest)
  | '+' :: rest => (false, rest)
  | cs => (false, cs)

/-- Models Python `float(s)` on plain decimal literals:
`[sign] digits [. digits] [(e|E) [sign] digits]`, requiring at least one
mantissa digit.  (The audited stores hold plain decimal numerics; the
special forms `inf`/`nan`/underscores/whitespace are not modelled.) -/
def pyFloat? (s : String) : Option ℚ :=
  let (neg, cs) := splitSign s.toList
  let ip := cs.takeWhile Char.isDigit
  let cs1 := cs.dropWhile Char.isDigit
  let (fp, cs2) :=
    match cs1 with
    | '.' :: r => (r.takeWhile Char.isDigit, r.dropWhile Char.isDigit)
    | _ => ([], cs1)
  if ip.isEmpty && fp.isEmpty then none
  else
    let mant : ℚ := (digitsToNat ip : ℚ) + (digitsToNat fp : ℚ) / 10 ^ fp.length
    let sgn : ℚ := if neg then -1 else 1
    match cs2 with
    | [] => some (sgn * mant)
    | 'e' :: r =>
      let (eneg, r1) := splitSign r
      if r1.isEmpty || !(r1.all Char.isDigit) then none
      else some (sgn * mant * (if eneg then 1 / 10 ^ digitsToNat r1 else 10 ^ digitsToNat r1))
    | 'E' :: r =>
      let (eneg, r1) := splitSign r
      if r1.isEmpty || !(r1.all Char.isDigit) then none
      else some (sgn * mant * (if eneg then 1 / 10 ^ digitsToNat r1 else 10 ^ digitsToNat r1))
    | _ => none

/-- Models `float(x or d)` applied to a resolved-or-absent column value:
`none` (column absent, so the scripts substitute the default without calling
`float`) and falsy values (`NULL`, `0`, `""`) give the default; a number is
kept; a non-empty string is parsed, and the result is `Option.none` when
`float` raises `ValueError`. -/
def pyFloatOr (v : Option SqlVal) (d : ℚ) : Option ℚ :=
  match v with
  | none => some d
  | some SqlVal.null => some d
  | some (SqlVal.num q) => if q = 0 then some d else some q
  | some (SqlVal.str s) => if s = "" then some d else pyFloat? s

/-- `float(x or d)` on a value known to come from a resolved column. -/
def pyFloatOrVal (v : SqlVal) (d : ℚ) : Option ℚ := pyFloatOr (some v) d

/-- Round to the nearest integer, ties to even (Python `round` semantics,
taken exactly on rationals). -/
def roundHalfEven (x : ℚ) : ℤ :=
  let f := Int.floor x
  let r := x - f
  if r < 1/2 then f
  else if 1/2 < r then f + 1
  else if f % 2 = 0 then f else f + 1

/-- Models Python `round(x, 2)` (exactly, on rationals). -/
def pyRound2 (q : ℚ) : ℚ := (roundHalfEven (q * 100) : ℚ) / 100

/-- A guardrail breach record as built by both scripts:
`{'date': str(day), 'net_pnl': round(pnl, 2), 'allowed': allowed, 'streak': loss_streak}`.
Dates are modelled as days since the Unix epoch. -/
structure Breach where
  date : ℤ
  net_pnl : ℚ
  allowed : ℚ
  streak : ℕ
deriving DecidableEq

/-- The reverse-Fibonacci allowed loss for a losing day:
`300 if loss_streak==0 else 200 if loss_streak==1 else 100`
(equivalently `fib[min(loss_streak, 2)]` with `fib = [300,200,100]`). -/
def guardAllowed (ls : ℕ) : ℚ :=
  if ls = 0 then 300 else if ls = 1 then 200 else 100

/-- One day of the guardrail scan (pm212_audit.py lines 123-131,
pm212_prepaper_agent.py lines 146-155; the two differ only in the epsilon).
State is `(loss_streak, breaches so far)`; the day is `(date, net_pnl)`. -/
def guardStep (eps : ℚ) (st : ℕ × List Breach) (dp : ℤ × ℚ) : ℕ × List Breach :=
  if dp.2 ≥ 0 then
    (0, st.2)
  else
    let allowed := guardAllowed st.1
    let brs :=
      if |dp.2| > allowed + eps then
        st.2 ++ [⟨dp.1, pyRound2 dp.2, allowed, st.1⟩]
      else st.2
    (min 3 (st.1 + 1), brs)

/-- The guardrail scan over the date-ascending daily P&L series, starting
from `loss_streak = 0` and no breaches. -/
def guardScan (eps : ℚ) (daily : List (ℤ × ℚ)) : ℕ × List Breach :=
  daily.foldl (guardStep eps) (0, [])

/-- Epsilon used by pm212_audit.py line 129. -/
def auditEps : ℚ := 1 / 1000000

/-- Epsilon used by pm212_prepaper_agent.py line 153. -/
def agentEps : ℚ := 1 / 1000000000

/-- The guardrail scan of pm212_audit.py. -/
def auditGuard (daily : List (ℤ × ℚ)) : ℕ × List Breach := guardScan auditEps daily

/-- The guardrail scan of pm212_prepaper_agent.py. -/
def agentGuard (daily : List (ℤ × ℚ)) : ℕ × List Breach := guardScan agentEps daily

theorem guardScan_streak_le (eps : ℚ) (daily : List (ℤ × ℚ)) :
    ∀ st : ℕ × List Breach, st.1 ≤ 3 → (daily.foldl (guardStep eps) st).1 ≤ 3 := by
  induction daily with
  | nil => intro st h; simpa using h
  | cons dp rest ih =>
    intro st h
    simp only [List.foldl_cons]
    apply ih
    unfold guardStep
    split
    · exact Nat.zero_le 3
    · exact Nat.min_le_left 3 _

/-- C1: on a non-negative day the streak resets to 0; on a losing day the
step appends a breach that depends only on the incoming streak and the day,
and the streak becomes `min 3 (ls+1)`; the streak never leaves {0,1,2,3}. -/
theorem guardrail_streak_spec (eps : ℚ) (ls : ℕ) (acc : List Breach) (d : ℤ) (p : ℚ) :
    (0 ≤ p → guardStep eps (ls, acc) (d, p) = (0, acc)) ∧
    (p < 0 → guardStep eps (ls, acc) (d, p) =
      (min 3 (ls + 1),
       acc ++ (if |p| > guardAllowed ls + eps then [⟨d, pyRound2 p, guardAllowed ls, ls⟩] else []))) ∧
    (∀ daily : List (ℤ × ℚ), (guardScan eps daily).1 ≤ 3) := by
  refine ⟨?_, ?_, ?_⟩
  · intro hp
    unfold guardStep
    simp [ge_iff_le, hp]
  · intro hp
    unfold guardStep
    rw [if_neg (by simpa using not_le.mpr hp)]
    split <;> simp_all
  · intro daily
    exact guardScan_streak_le eps daily (0, []) (by simp)

theorem guardrail_streak_spec_witness :
    (0 ≤ (7:ℚ) ∧ guardStep auditEps (2, []) ((1:ℤ), (7:ℚ)) = (0, [])) ∧
    ((-50:ℚ) < 0 ∧ guardStep auditEps (2, []) ((0:ℤ), (-50:ℚ)) =
      (min 3 (2 + 1),
       [] ++ (if |(-50:ℚ)| > guardAllowed 2 + auditEps then
          [⟨0, pyRound2 (-50), guardAllowed 2, 2⟩] else []))) :=
  ⟨⟨by norm_num, (guardrail_streak_spec auditEps 2 [] 1 7).1 (by norm_num)⟩,
   ⟨by norm_num, (guardrail_streak_spec auditEps 2 [] 0 (-50)).2.1 (by norm_num)⟩⟩

/-- C2 (amended): on a losing day a breach is recorded iff the absolute loss
exceeds `allowed + ε`, with `ε = 1e-6` in pm212_audit.py and `ε = 1e-9` in
pm212_prepaper_agent.py, where `allowed` is 300/200/100 for streak 0/1/≥2. -/
theorem guardrail_breach_iff (ls : ℕ) (acc : List Breach) (d : ℤ) (p : ℚ) (hp : p < 0) :
    ((guardStep auditEps (ls, acc) (d, p)).2 ≠ acc ↔ |p| > guardAllowed ls + 1/1000000) ∧
    ((guardStep agentEps (ls, acc) (d, p)).2 ≠ acc ↔ |p| > guardAllowed ls + 1/1000000000) ∧
    guardAllowed 0 = 300 ∧ guardAllowed 1 = 200 ∧ ∀ n, 2 ≤ n → guardAllowed n = 100 := by
  have key : ∀ eps : ℚ, ((guardStep eps (ls, acc) (d, p)).2 ≠ acc ↔ |p| > guardAllowed ls + eps) := by
    intro eps
    rw [(guardrail_streak_spec eps ls acc d p).2.1 hp]
    constructor
    · intro h
      by_contra hno
      simp [hno] at h
    · intro h
      simp only [h, if_pos]
      intro hh
      have := congrArg List.length hh
      simp at this
  refine ⟨key auditEps, key agentEps, rfl, rfl, ?_⟩
  intro n hn
  unfold guardAllowed
  rw [if_neg (by omega), if_neg (by omega)]

theorem guardrail_breach_iff_witness :
    ((-350:ℚ) < 0) ∧
    ((guardStep auditEps (0, []) ((0:ℤ), (-350:ℚ))).2 ≠ [] ↔
      |(-350:ℚ)| > guardAllowed 0 + 1/1000000) :=
  ⟨by norm_num, (guardrail_breach_iff 0 [] 0 (-350) (by norm_num)).1⟩

/-- C2 counterexample: with a first-day loss of 300 + 5e-7, the prepaper
agent records a breach although `|net_pnl| ≤ allowed + 1e-6`; so the claimed
epsilon `1e-6` does not hold for pm212_prepaper_agent.py (which uses 1e-9). -/
theorem guardrail_epsilon_counterexample :
    (agentGuard [((0:ℤ), -(300 + 1/2000000))]).2 ≠ [] ∧
    ¬ (|(-(300 + 1/2000000) : ℚ)| > guardAllowed 0 + 1/1000000) := by
  have habs : |(-(300 + 1/2000000) : ℚ)| = 300 + 1/2000000 := by
    rw [abs_neg, abs_of_nonneg (by norm_num)]
  constructor
  · have h := (guardrail_streak_spec agentEps 0 [] 0 (-(300 + 1/2000000))).2.1 (by norm_num)
    have hgt : |(-(300 + 1/2000000) : ℚ)| > guardAllowed 0 + agentEps := by
      rw [habs]; norm_num [guardAllowed, agentEps]
    unfold agentGuard guardScan
    simp only [List.foldl_cons, List.foldl_nil]
    rw [h, if_pos hgt]
    simp
  · rw [habs]; norm_num [guardAllowed]

/-- Python `<=` on strings: lexicographic comparison by code point. -/
def lexLe : List Char → List Char → Bool
  | [], _ => true
  | _ :: _, [] => false
  | x :: xs, y :: ys =>
    if x.toNat < y.toNat then true
    else if y.toNat < x.toNat then false
    else lexLe xs ys

/-- Python string `<=` (code-point lexicographic order). -/
def strLe (a b : String) : Bool := lexLe a.toList b.toList

theorem lexLe_refl : ∀ a : List Char, lexLe a a = true := by
  intro a
  induction a with
  | nil => rfl
  | cons x xs ih => simp [lexLe, ih]

theorem strLe_refl (a : String) : strLe a a = true := lexLe_refl a.toList

theorem lexLe_trans :
    ∀ a b c : List Char, lexLe a b = true → lexLe b c = true → lexLe a c = true := by
  intro a
  induction a with
  | nil => intro b c _ _; rfl
  | cons x xs ih =>
    intro b c hab hbc
    cases b with
    | nil => simp [lexLe] at hab
    | cons y ys =>
      cases c with
      | nil => simp [lexLe] at hbc
      | cons z zs =>
        simp only [lexLe] at hab hbc ⊢
        rcases Nat.lt_trichotomy x.toNat y.toNat with h1 | h1 | h1
        · rcases Nat.lt_trichotomy y.toNat z.toNat with h2 | h2 | h2
          · simp [Nat.lt_trans h1 h2]
          · simp [h2 ▸ h1]
          · simp [h2, Nat.lt_asymm h2] at hbc
        · rcases Nat.lt_trichotomy y.toNat z.toNat with h2 | h2 | h2
          · simp [h1 ▸ h2]
          · have hxz : x.toNat = z.toNat := h1.trans h2
            simp [h1, Nat.lt_irrefl] at hab
            simp [h2, Nat.lt_irrefl] at hbc
            simp [hxz, Nat.lt_irrefl]
            exact ih ys zs hab hbc
          · simp [h2, Nat.lt_asymm h2] at hbc
        · simp [h1, Nat.lt_asymm h1] at hab

theorem strLe_trans (a b c : String) :
    strLe a b = true → strLe b c = true → strLe a c = true :=
  lexLe_trans a.toList b.toList c.toList

/-- The binary-search loop shared by `nearest` (pm212_audit.py lines 156-164)
and `last_before` (pm212_prepaper_agent.py lines 177-184):
`lo, hi, best = 0, len(arr)-1, None`; while `lo <= hi`, if
`key(arr[mid]) <= target` take `best = arr[mid]; lo = mid+1` else
`hi = mid-1`.  `keyOf` extracts a quote's timestamp string (pm212_audit
applies `str` on the fly; the agent stores string keys).  The loop runs at
most `len(arr)` iterations, given here as fuel. -/
def lbGo {β : Type} (keyOf : β → String) (arr : List β) (key : String) :
    ℕ → ℤ → ℤ → Option β → Option β
  | 0, _, _, best => best
  | fuel + 1, lo, hi, best =>
    if lo ≤ hi then
      let mid : ℤ := (lo + hi) / 2
      match arr.get? mid.toNat with
      | none => best
      | some q =>
        if strLe (keyOf q) key then lbGo keyOf arr key fuel (mid + 1) hi (some q)
        else lbGo keyOf arr key fuel lo (mid - 1) best
    else best

/-- The whole binary search: last element whose key is `<=` the target. -/
def lastBefore {β : Type} (keyOf : β → String) (arr : List β) (key : String) : Option β :=
  lbGo keyOf arr key (arr.length + 1) 0 ((arr.length : ℤ) - 1) none

theorem filter_eq_take {β : Type} (p : β → Bool) :
    ∀ (arr : List β) (k : ℕ), k ≤ arr.length →
      (∀ i q, i < k → arr.get? i = some q → p q = true) →
      (∀ i q, k ≤ i → arr.get? i = some q → p q = false) →
      arr.filter p = arr.take k := by
  intro arr
  induction arr with
  | nil => intro k hk _ _; simp at hk; simp [hk]
  | cons x xs ih =>
    intro k hk h1 h2
    cases k with
    | zero =>
      have hx : p x = false := h2 0 x (Nat.zero_le 0) rfl
      have hxs := ih 0 (Nat.zero_le _) (fun i q hi => by omega)
        (fun i q _ hq => h2 (i + 1) q (Nat.zero_le _) hq)
      simp [List.filter_cons, hx, hxs]
    | succ k₁ =>
      have hx : p x = true := h1 0 x (Nat.succ_pos _) rfl
      have hxs := ih k₁ (by simpa using hk)
        (fun i q hi hq => h1 (i + 1) q (by omega) hq)
        (fun i q hi hq => h2 (i + 1) q (by omega) hq)
      simp [List.filter_cons, hx, hxs, List.take_succ_cons]

theorem getLast?_take_eq {β : Type} (arr : List β) (k : ℕ) (hk : 0 < k)
    (hk2 : k ≤ arr.length) : (arr.take k).getLast? = arr.get? (k - 1) := by
  rw [List.getLast?_eq_getElem?]
  have hlen : (arr.take k).length = k := by
    rw [List.length_take]; omega
  rw [hlen]
  have h2 : (arr.take k)[k - 1]? = arr[k - 1]? := List.getElem?_take_of_lt (by omega)
  rw [h2, ← List.get?_eq_getElem?]

theorem pairwise_get_strLe {β : Type} (keyOf : β → String) (arr : List β)
    (hs : arr.Pairwise (fun a b => strLe (keyOf a) (keyOf b) = true))
    (i j : ℕ) (hij : i ≤ j) (hj : j < arr.length) :
    strLe (keyOf (arr.get ⟨i, by omega⟩)) (keyOf (arr.get ⟨j, hj⟩)) = true := by
  rcases Nat.eq_or_lt_of_le hij with h | h
  · subst h; exact strLe_refl _
  · exact List.pairwise_iff_get.mp hs ⟨i, by omega⟩ ⟨j, hj⟩ h

theorem lbGo_correct {β : Type} (keyOf : β → String) (arr : List β) (key : String)
    (hs : arr.Pairwise (fun a b => strLe (keyOf a) (keyOf b) = true)) :
    ∀ (fuel : ℕ) (lo hi : ℤ) (best : Option β),
      0 ≤ lo → lo ≤ hi + 1 → hi < (arr.length : ℤ) →
      hi + 1 - lo < (fuel : ℤ) →
      (∀ (i : ℕ) (q : β), (i : ℤ) < lo → arr.get? i = some q → strLe (keyOf q) key = true) →
      (∀ (i : ℕ) (q : β), hi < (i : ℤ) → arr.get? i = some q → strLe (keyOf q) key = false) →
      (best = if lo = 0 then none else arr.get? (lo.toNat - 1)) →
      lbGo keyOf arr key fuel lo hi best =
        (arr.filter (fun q => strLe (keyOf q) key)).getLast? := by
  intro fuel
  induction fuel with
  | zero =>
    intro lo hi best _ _ _ hfuel _ _ _
    omega
  | succ fuel ih =>
    intro lo hi best hlo hlohi hhi hfuel hbefore hafter hbest
    by_cases hcmp : lo ≤ hi
    case neg =>
      have hexit : lo = hi + 1 := by omega
      have hfilter : arr.filter (fun q => strLe (keyOf q) key) = arr.take lo.toNat :=
        filter_eq_take _ arr lo.toNat (by omega)
          (fun i q hi2 hq => hbefore i q (by omega) hq)
          (fun i q hi2 hq => hafter i q (by omega) hq)
      rw [lbGo, if_neg hcmp, hfilter, hbest]
      rcases Nat.eq_zero_or_pos lo.toNat with h0 | h0
      · rw [if_pos (by omega)]
        simp [h0]
      · rw [if_neg (by omega), getLast?_take_eq arr lo.toNat h0 (by omega)]
    case pos =>
      set mid : ℤ := (lo + hi) / 2 with hmid
      have hmid_lb : lo ≤ mid := by omega
      have hmid_ub : mid ≤ hi := by omega
      have hmid_lt : mid.toNat < arr.length := by omega
      have hget : arr.get? mid.toNat = some (arr.get ⟨mid.toNat, hmid_lt⟩) :=
        List.get?_eq_get hmid_lt
      rw [lbGo, if_pos hcmp]
      simp only [← hmid, hget]
      by_cases hq : strLe (keyOf (arr.get ⟨mid.toNat, hmid_lt⟩)) key = true
      · rw [if_pos hq]
        apply ih (mid + 1) hi (some (arr.get ⟨mid.toNat, hmid_lt⟩)) (by omega) (by omega) hhi
          (by omega)
        · intro i q hi2 hq2
          by_cases hcase : (i : ℤ) < lo
          · exact hbefore i q hcase hq2
          · have hile : i ≤ mid.toNat := by omega
            have : q = arr.get ⟨i, by omega⟩ := by
              have := List.get?_eq_get (l := arr) (n := i) (by omega)
              rw [this] at hq2
              exact (Option.some.injEq _ _).mp hq2.symm
            subst this
            exact strLe_trans _ _ _
              (pairwise_get_strLe keyOf arr hs i mid.toNat hile hmid_lt) hq
        · intro i q hi2 hq2
          exact hafter i q hi2 hq2
        · rw [if_neg (by omega)]
          have hidx : (mid + 1).toNat - 1 = mid.toNat := by omega
          rw [hidx, List.get?_eq_get hmid_lt]
      · rw [if_neg hq]
        apply ih lo (mid - 1) best hlo (by omega) (by omega) (by omega)
        · intro i q hi2 hq2
          exact hbefore i q hi2 hq2
        · intro i q hi2 hq2
          by_cases hcase : hi < (i : ℤ)
          · exact hafter i q hcase hq2
          · have hige : mid.toNat ≤ i := by omega
            have hilt : i < arr.length := by omega
            have : q = arr.get ⟨i, hilt⟩ := by
              have := List.get?_eq_get (l := arr) (n := i) hilt
              rw [this] at hq2
              exact (Option.some.injEq _ _).mp hq2.symm
            subst this
            apply Bool.eq_false_iff.mpr
            intro habs
            exact hq (strLe_trans _ _ _
              (pairwise_get_strLe keyOf arr hs mid.toNat i hige hilt) habs)
        · exact hbest

/-- On a key-sorted quote list, the binary search returns the last element
whose key is `<=` the target, and `none` exactly when no such element
exists. -/
theorem lastBefore_eq_getLast_filter {β : Type} (keyOf : β → String) (arr : List β)
    (key : String) (hs : arr.Pairwise (fun a b => strLe (keyOf a) (keyOf b) = true)) :
    lastBefore keyOf arr key = (arr.filter (fun q => strLe (keyOf q) key)).getLast? := by
  unfold lastBefore
  apply lbGo_correct keyOf arr key hs (arr.length + 1) 0 ((arr.length : ℤ) - 1) none
    (by omega) (by omega) (by omega) (by omega)
  · intro i q hi2 _
    omega
  · intro i q hi2 hq2
    rw [List.get?_eq_none.mpr (by omega)] at hq2
    exact Option.noConfusion hq2
  · simp

/-- Models Python `str()` on a stored value as a deterministic rendering.
Timestamps in the audited stores are canonical zero-padded strings, on which
`str` is the identity; a numeric value is rendered as its exact rational
literal (Python renders a float repr; everything proved here depends only on
`str` being a fixed deterministic function of the value). -/
def pyStr : SqlVal → String
  | SqlVal.null => "None"
  | SqlVal.num q => toString q
  | SqlVal.str s => s

/-- A quote as stored per symbol by pm212_audit.py: raw `(ts, bid, ask)`. -/
abbrev AuditQuote := SqlVal × SqlVal × SqlVal

/-- `nearest` (pm212_audit.py lines 152-166): binary search by string
compare, then the coercion `(float(best[1] or 0), float(best[2] or 0))`.
`some none` models the return value `(None, None)` (the caller then skips
the trade); `some (some (bid, ask))` a successful match; the outer `none` an
aborted run (`float` raised on a non-numeric text bid/ask). -/
def auditNearest (arr : List AuditQuote) (ts : SqlVal) : Option (Option (ℚ × ℚ)) :=
  match lastBefore (fun q => pyStr q.1) arr (pyStr ts) with
  | none => some none
  | some best => do
      let b ← pyFloatOrVal best.2.1 0
      let a ← pyFloatOrVal best.2.2 0
      some (some (b, a))

/-- Counters of the NBBO plausibility loop.  Both scripts also collect
sample outlier rows (symbol/time/price/bid/ask) for diagnostics; only their
count matters to any result here. -/
structure NbboAcc where
  checked : ℕ
  within : ℕ
  mid_or_better : ℕ
  outlier_count : ℕ
deriving DecidableEq

/-- One checked trade in pm212_audit.py (lines 179-184): the band check with
tolerance, then the mid comparison with no `ask >= bid` sanity guard. -/
def auditClassify (tol : ℚ) (a : NbboAcc) (px bid ask : ℚ) : NbboAcc :=
  let a1 : NbboAcc := { a with checked := a.checked + 1 }
  let a2 : NbboAcc :=
    if px ≥ bid - tol ∧ px ≤ ask + tol then { a1 with within := a1.within + 1 }
    else { a1 with outlier_count := a1.outlier_count + 1 }
  if px ≥ (bid + ask) / 2 then { a2 with mid_or_better := a2.mid_or_better + 1 } else a2

/-- One checked trade in pm212_prepaper_agent.py (lines 198-205): the same
band check, but the mid comparison runs only when `ask >= bid`. -/
def agentClassify (tol : ℚ) (a : NbboAcc) (px bid ask : ℚ) : NbboAcc :=
  let a1 : NbboAcc := { a with checked := a.checked + 1 }
  let a2 : NbboAcc :=
    if px ≥ bid - tol ∧ px ≤ ask + tol then { a1 with within := a1.within + 1 }
    else { a1 with outlier_count := a1.outlier_count + 1 }
  if bid ≤ ask then
    if px ≥ (bid + ask) / 2 then { a2 with mid_or_better := a2.mid_or_better + 1 } else a2
  else a2

/-- The audit caller of `nearest` (pm212_audit.py lines 177-178): a trade
whose lookup returned `(None, None)` is skipped, otherwise classified. -/
def auditHandle (tol : ℚ) (a : NbboAcc) (px : ℚ) : Option (ℚ × ℚ) → NbboAcc
  | none => a
  | some ba => auditClassify tol a px ba.1 ba.2

/-- C4: on the (sorted) per-symbol quote list, the binary search of both
scripts returns the last quote whose timestamp string is `<=` the trade's
entry timestamp string — hence never one strictly greater — and when no such
quote exists, `nearest` yields `(None, None)` and the caller leaves the
accumulators untouched, excluding the trade from the NBBO check. -/
theorem quote_matcher_last_leq :
    (∀ {β : Type} (keyOf : β → String) (arr : List β) (key : String),
        arr.Pairwise (fun a b => strLe (keyOf a) (keyOf b) = true) →
        lastBefore keyOf arr key = (arr.filter (fun q => strLe (keyOf q) key)).getLast?) ∧
    (∀ (arr : List AuditQuote) (ts : SqlVal) (tol : ℚ) (a : NbboAcc) (px : ℚ),
        lastBefore (fun q => pyStr q.1) arr (pyStr ts) = none →
        auditNearest arr ts = some none ∧ auditHandle tol a px none = a) := by
  constructor
  · intro β keyOf arr key hs
    exact lastBefore_eq_getLast_filter keyOf arr key hs
  · intro arr ts tol a px hnone
    constructor
    · unfold auditNearest
      rw [hnone]
    · rfl

theorem quote_matcher_last_leq_witness :
    (List.Pairwise (fun a b : String => strLe a b = true) ["a", "b"] ∧
      lastBefore (fun s : String => s) ["a", "b"] "a" =
        ((["a", "b"]).filter (fun q => strLe q "a")).getLast?) ∧
    (lastBefore (fun q : AuditQuote => pyStr q.1) [] (pyStr SqlVal.null) = none ∧
      auditNearest [] SqlVal.null = some none ∧
      auditHandle (1/100) ⟨0, 0, 0, 0⟩ 5 none = (⟨0, 0, 0, 0⟩ : NbboAcc)) :=
  ⟨⟨by decide, quote_matcher_last_leq.1 (fun s => s) ["a", "b"] "a" (by decide)⟩,
   ⟨by decide,
    quote_matcher_last_leq.2 [] SqlVal.null (1/100) ⟨0, 0, 0, 0⟩ 5 (by decide)⟩⟩

/-- C5 counterexample: pm212_audit.py performs the mid comparison even when
`ask < bid`: a trade priced 8, matched to the corrupt quote
`(bid, ask) = (10, 5)`, is counted in the mid-or-better tally. -/
theorem corrupt_quote_mid_counterexample :
    (5 : ℚ) < 10 ∧
    (auditClassify (1/100) ⟨0, 0, 0, 0⟩ 8 10 5).mid_or_better = 1 := by
  constructor
  · norm_num
  · simp only [auditClassify]
    norm_num

/-- C5 (amended): the corrupt-quote guard exists only in
pm212_prepaper_agent.py, which never counts a trade matched to a quote with
`ask < bid` in the mid-or-better tally; pm212_audit.py runs the unguarded
mid comparison on every checked trade, corrupt quote or not. -/
theorem corrupt_quote_mid_guard (tol px bid ask : ℚ) (a : NbboAcc) (h : ask < bid) :
    (agentClassify tol a px bid ask).mid_or_better = a.mid_or_better ∧
    (auditClassify tol a px bid ask).mid_or_better =
      (if px ≥ (bid + ask) / 2 then a.mid_or_better + 1 else a.mid_or_better) := by
  constructor
  · simp only [agentClassify]
    rw [if_neg (not_le.mpr h)]
    split <;> rfl
  · simp only [auditClassify]
    split <;> split <;> rfl

theorem corrupt_quote_mid_guard_witness :
    (5 : ℚ) < 10 ∧
    (agentClassify (1/100) ⟨0, 0, 0, 0⟩ 8 10 5).mid_or_better =
      (⟨0, 0, 0, 0⟩ : NbboAcc).mid_or_better ∧
    (auditClassify (1/100) ⟨0, 0, 0, 0⟩ 8 10 5).mid_or_better =
      (if (8:ℚ) ≥ ((10:ℚ) + 5) / 2 then (⟨0, 0, 0, 0⟩ : NbboAcc).mid_or_better + 1
       else (⟨0, 0, 0, 0⟩ : NbboAcc).mid_or_better) :=
  ⟨by norm_num,
   (corrupt_quote_mid_guard (1/100) 8 10 5 ⟨0, 0, 0, 0⟩ (by norm_num)).1,
   (corrupt_quote_mid_guard (1/100) 8 10 5 ⟨0, 0, 0, 0⟩ (by norm_num)).2⟩

/-- C10: a matched quote with NULL bid and ask is not skipped: `nearest`
coerces each NULL side to 0.0 (`float(best[i] or 0)`), the caller counts the
trade as checked against the band built from bid = ask = 0.0, and the agent
applies the same coercion when building its symbol map
(pm212_prepaper_agent.py line 172). -/
theorem null_quote_coerced_to_zero (arr : List AuditQuote) (ts tsv : SqlVal)
    (tol px : ℚ) (a : NbboAcc)
    (h : lastBefore (fun q => pyStr q.1) arr (pyStr ts) =
      some (tsv, SqlVal.null, SqlVal.null)) :
    auditNearest arr ts = some (some (0, 0)) ∧
    (auditHandle tol a px (some (0, 0))).checked = a.checked + 1 ∧
    pyFloatOrVal SqlVal.null 0 = some 0 := by
  refine ⟨?_, ?_, rfl⟩
  · unfold auditNearest
    rw [h]
    rfl
  · simp only [auditHandle, auditClassify]
    split <;> split <;> rfl

theorem null_quote_coerced_to_zero_witness :
    (lastBefore (fun q : AuditQuote => pyStr q.1)
        [(SqlVal.str "a", SqlVal.null, SqlVal.null)] (pyStr (SqlVal.str "a")) =
      some (SqlVal.str "a", SqlVal.null, SqlVal.null)) ∧
    auditNearest [(SqlVal.str "a", SqlVal.null, SqlVal.null)] (SqlVal.str "a") =
      some (some (0, 0)) ∧
    (auditHandle (1/100) ⟨0, 0, 0, 0⟩ 5 (some (0, 0))).checked = 0 + 1 ∧
    pyFloatOrVal SqlVal.null 0 = some 0 :=
  ⟨by decide,
   (null_quote_coerced_to_zero [(SqlVal.str "a", SqlVal.null, SqlVal.null)]
      (SqlVal.str "a") (SqlVal.str "a") (1/100) 5 ⟨0, 0, 0, 0⟩ (by decide)).1,
   (null_quote_coerced_to_zero [(SqlVal.str "a", SqlVal.null, SqlVal.null)]
      (SqlVal.str "a") (SqlVal.str "a") (1/100) 5 ⟨0, 0, 0, 0⟩ (by decide)).2.1,
   (null_quote_coerced_to_zero [(SqlVal.str "a", SqlVal.null, SqlVal.null)]
      (SqlVal.str "a") (SqlVal.str "a") (1/100) 5 ⟨0, 0, 0, 0⟩ (by decide)).2.2⟩

/-- Python `int()` on a float value: truncation toward zero. -/
def pyTrunc (q : ℚ) : ℤ := Int.tdiv q.num (q.den : ℤ)

/-- Proleptic Gregorian leap-year rule. -/
def isLeap (y : ℤ) : Bool := y % 4 = 0 && (y % 100 != 0 || y % 400 = 0)

def daysInMonth (y : ℤ) (m : ℕ) : ℕ :=
  if m = 2 then (if isLeap y then 29 else 28)
  else if m = 4 || m = 6 || m = 9 || m = 11 then 30 else 31

/-- The validity check `datetime` applies to a parsed calendar date. -/
def validDate (y m d : ℕ) : Bool :=
  1 ≤ y && y ≤ 9999 && 1 ≤ m && m ≤ 12 && 1 ≤ d && d ≤ daysInMonth (y : ℤ) m

/-- Hour/minute/second ranges accepted by `datetime`. -/
def validHMS (h mi s : ℕ) : Bool := h ≤ 23 && mi ≤ 59 && s ≤ 59

/-- Days since the Unix epoch of a civil date (standard civil-from-days
conversion; only called on calendar-valid dates with `1 ≤ y ≤ 9999`, where
every division below acts on non-negative values). -/
def daysFromCivil (y : ℕ) (m d : ℕ) : ℤ :=
  let y1 : ℤ := if m ≤ 2 then (y : ℤ) - 1 else (y : ℤ)
  let era : ℤ := y1 / 400
  let yoe : ℤ := y1 - era * 400
  let mp : ℤ := ((m : ℤ) + 9) % 12
  let doy : ℤ := (153 * mp + 2) / 5 + (d : ℤ) - 1
  let doe : ℤ := yoe * 365 + yoe / 4 - yoe / 100 + doy
  era * 146097 + doe - 719468

/-- Two digits to a number; `none` unless both characters are digits. -/
def dig2 (a b : Char) : Option ℕ :=
  if a.isDigit && b.isDigit then some ((a.toNat - 48) * 10 + (b.toNat - 48)) else none

/-- Four digits to a number; `none` unless all characters are digits. -/
def dig4 (a b c d : Char) : Option ℕ :=
  if a.isDigit && b.isDigit && c.isDigit && d.isDigit then
    some ((a.toNat - 48) * 1000 + (b.toNat - 48) * 100 + (c.toNat - 48) * 10 + (d.toNat - 48))
  else none

/-- strptime with `%Y-%m-%d %H:%M:%S` (or the `T` variant, via `sep`) on the
canonical zero-padded rendering.  (CPython's strptime also accepts unpadded
digit runs; the audited stores use the canonical zero-padded format — the
quote matcher's string-ordering assumption requires it.)  Returns the
calendar date as days since the Unix epoch. -/
def fmtYmdHMS (sep : Char) : List Char → Option ℤ
  | [y1, y2, y3, y4, '-', m1, m2, '-', dd1, dd2, sp, h1, h2, ':', mi1, mi2, ':', s1, s2] =>
    if sp = sep then do
      let y ← dig4 y1 y2 y3 y4
      let m ← dig2 m1 m2
      let d ← dig2 dd1 dd2
      let hh ← dig2 h1 h2
      let mi ← dig2 mi1 mi2
      let ss ← dig2 s1 s2
      if validDate y m d && validHMS hh mi ss then some (daysFromCivil y m d) else none
    else none
  | _ => none

/-- strptime with `%Y-%m-%d` (canonical zero-padded rendering). -/
def fmtYmd : List Char → Option ℤ
  | [y1, y2, y3, y4, '-', m1, m2, '-', dd1, dd2] => do
    let y ← dig4 y1 y2 y3 y4
    let m ← dig2 m1 m2
    let d ← dig2 dd1 dd2
    if validDate y m d then some (daysFromCivil y m d) else none
  | _ => none

/-- strptime with `%Y-%m-%d %H:%M` (canonical zero-padded rendering). -/
def fmtYmdHM : List Char → Option ℤ
  | [y1, y2, y3, y4, '-', m1, m2, '-', dd1, dd2, ' ', h1, h2, ':', mi1, mi2] => do
    let y ← dig4 y1 y2 y3 y4
    let m ← dig2 m1 m2
    let d ← dig2 dd1 dd2
    let hh ← dig2 h1 h2
    let mi ← dig2 mi1 mi2
    if validDate y m d && validHMS hh mi 0 then some (daysFromCivil y m d) else none
  | _ => none

/-- strptime with `%Y/%m/%d %H:%M:%S` (canonical zero-padded rendering);
only pm212_audit.py tries this format. -/
def fmtYslashHMS : List Char → Option ℤ
  | [y1, y2, y3, y4, '/', m1, m2, '/', dd1, dd2, ' ', h1, h2, ':', mi1, mi2, ':', s1, s2] => do
    let y ← dig4 y1 y2 y3 y4
    let m ← dig2 m1 m2
    let d ← dig2 dd1 dd2
    let hh ← dig2 h1 h2
    let mi ← dig2 mi1 mi2
    let ss ← dig2 s1 s2
    if validDate y m d && validHMS hh mi ss then some (daysFromCivil y m d) else none
  | _ => none

/-- UTC calendar day of an epoch-seconds value, `none` outside datetime's
year range 1..9999 (where `utcfromtimestamp` raises and `to_date` returns
`None`). -/
def epochDay (t : ℤ) : Option ℤ :=
  let day := Int.fdiv t 86400
  if -719162 ≤ day && day ≤ 2932896 then some day else none

/-- `to_date` (pm212_audit.py lines 81-95): a numeric value is taken as
epoch seconds; a string is tried, on its first 19 characters, against
`%Y-%m-%d %H:%M:%S`, `%Y-%m-%dT%H:%M:%S`, `%Y-%m-%d`, `%Y/%m/%d %H:%M:%S`,
`%Y-%m-%d %H:%M` in that order.  Result: the date as days since the epoch
(`.date()` is applied downstream; only the date is ever used). -/
def to_dtAudit : Option SqlVal → Option ℤ
  | none => none
  | some SqlVal.null => none
  | some (SqlVal.num q) => epochDay (pyTrunc q)
  | some (SqlVal.str s) =>
    let cs := s.toList.take 19
    (fmtYmdHMS ' ' cs).orElse fun _ => (fmtYmdHMS 'T' cs).orElse fun _ =>
      (fmtYmd cs).orElse fun _ => (fmtYslashHMS cs).orElse fun _ => fmtYmdHM cs

/-- `to_dt` (pm212_prepaper_agent.py lines 65-76): as `to_date` but with
format order `%Y-%m-%d %H:%M:%S`, `%Y-%m-%dT%H:%M:%S`, `%Y-%m-%d %H:%M`,
`%Y-%m-%d`, and no slash format. -/
def to_dtAgent : Option SqlVal → Option ℤ
  | none => none
  | some SqlVal.null => none
  | some (SqlVal.num q) => epochDay (pyTrunc q)
  | some (SqlVal.str s) =>
    let cs := s.toList.take 19
    (fmtYmdHMS ' ' cs).orElse fun _ => (fmtYmdHMS 'T' cs).orElse fun _ =>
      (fmtYmdHM cs).orElse fun _ => fmtYmd cs

/-- A raw trades-table row after schema resolution: each role holds `none`
when no column was resolved for it, otherwise the stored cell value. -/
structure RawTrade where
  symbol : Option SqlVal
  entry_t : Option SqlVal
  exit_t : Option SqlVal
  entry_px : Option SqlVal
  exit_px : Option SqlVal
  qty : Option SqlVal
  fees : Option SqlVal
  mult : Option SqlVal
  realized : Option SqlVal
deriving DecidableEq

/-- A normalized trade of pm212_audit.py (lines 97-108): coerced numeric
fields, parsed entry date, plus the raw entry timestamp, symbol and
realized value, which that script keeps unconverted. -/
structure AuditTrade where
  entry_day : Option ℤ
  entry_ts : Option SqlVal
  symbol : Option SqlVal
  entry_px : ℚ
  exit_px : ℚ
  qty : ℚ
  fees : ℚ
  mult : ℚ
  realized : Option SqlVal
deriving DecidableEq

/-- Trade normalization of pm212_audit.py (lines 97-108): `float(x or 0)`
on entry/exit price, quantity and fees, `float(x or 100)` on the
multiplier, dates via `to_date`; `none` when a `float` call raises
(non-numeric text in a numeric field aborts the run). -/
def normalizeAudit (r : RawTrade) : Option AuditTrade := do
  let pin ← pyFloatOr r.entry_px 0
  let pout ← pyFloatOr r.exit_px 0
  let q ← pyFloatOr r.qty 0
  let f ← pyFloatOr r.fees 0
  let m ← pyFloatOr r.mult 100
  some { entry_day := to_dtAudit r.entry_t, entry_ts := r.entry_t, symbol := r.symbol,
         entry_px := pin, exit_px := pout, qty := q, fees := f, mult := m,
         realized := r.realized }

/-- C8 counterexample: a quantity cell holding the non-numeric text "abc"
does not coerce to 0.0 — `float("abc")` raises `ValueError`, the run aborts
and the row is not processed. -/
theorem normalizer_nonnumeric_counterexample :
    normalizeAudit
      ⟨none, none, none, none, none, some (SqlVal.str "abc"), none, none, none⟩ = none ∧
    pyFloat? "abc" = none := by
  constructor <;> decide

/-- C8 (amended): a numeric field that is absent, NULL or falsy (`0`, `""`)
coerces to its default — 0.0 for quantity, prices and fees, 100.0 for the
multiplier — without raising; a numeric string parses to its value; but a
non-empty non-numeric string makes `float` raise, aborting the run, so that
row is not processed. -/
theorem normalizer_coercion_spec (d q : ℚ) (s : String) :
    pyFloatOr none d = some d ∧
    pyFloatOr (some SqlVal.null) d = some d ∧
    pyFloatOr (some (SqlVal.num 0)) d = some d ∧
    (q ≠ 0 → pyFloatOr (some (SqlVal.num q)) d = some q) ∧
    pyFloatOr (some (SqlVal.str "")) d = some d ∧
    (s ≠ "" → pyFloatOr (some (SqlVal.str s)) d = pyFloat? s) ∧
    (∀ r : RawTrade, r.qty = some (SqlVal.str s) → s ≠ "" → pyFloat? s = none →
      normalizeAudit r = none) := by
  refine ⟨rfl, rfl, by simp [pyFloatOr], ?_, by simp [pyFloatOr], ?_, ?_⟩
  · intro hq
    simp [pyFloatOr, hq]
  · intro hs
    simp [pyFloatOr, hs]
  · intro r hqty hs hparse
    unfold normalizeAudit
    rw [hqty]
    cases hA : pyFloatOr r.entry_px 0 <;> cases hB : pyFloatOr r.exit_px 0 <;>
      simp [Option.bind, hA, hB, pyFloatOr, hs, hparse]

theorem normalizer_coercion_spec_witness :
    ((5:ℚ) ≠ 0 ∧ pyFloatOr (some (SqlVal.num 5)) 0 = some 5) ∧
    ("ab" ≠ "" ∧ pyFloatOr (some (SqlVal.str "ab")) 100 = pyFloat? "ab") ∧
    normalizeAudit
      ⟨none, some (SqlVal.str "2020-01-02"), none, none, none,
        some (SqlVal.str "xyz"), none, none, none⟩ = none :=
  ⟨⟨by norm_num, (normalizer_coercion_spec 0 5 "ab").2.2.2.1 (by norm_num)⟩,
   ⟨by decide, (normalizer_coercion_spec 100 5 "ab").2.2.2.2.2.1 (by decide)⟩,
   (normalizer_coercion_spec 0 5 "xyz").2.2.2.2.2.2
     ⟨none, some (SqlVal.str "2020-01-02"), none, none, none,
       some (SqlVal.str "xyz"), none, none, none⟩ rfl (by decide) (by decide)⟩

/-- Realized P&L resolution of pm212_audit.py (lines 107 and 115-117): the
raw cell is kept at normalization; `None` (absent column, or NULL value)
derives `(exit_px - entry_px) * qty * mult`; a number is used verbatim; any
text value — numeric-looking or not — later hits `realized - fees` and
raises `TypeError`, aborting the run (`none`). -/
def auditRealized (t : AuditTrade) : Option ℚ :=
  match t.realized with
  | none => some ((t.exit_px - t.entry_px) * t.qty * t.mult)
  | some SqlVal.null => some ((t.exit_px - t.entry_px) * t.qty * t.mult)
  | some (SqlVal.num q) => some q
  | some (SqlVal.str _) => none

/-- Realized P&L resolution of pm212_prepaper_agent.py (lines 134-139):
absent column or NULL derives the synthetic value; otherwise
`float(realized)` is tried and a failing conversion coerces to 0.0. -/
def agentRealized (real : Option SqlVal) (pin pout qty mult : ℚ) : ℚ :=
  match real with
  | none => (pout - pin) * qty * mult
  | some SqlVal.null => (pout - pin) * qty * mult
  | some (SqlVal.num q) => q
  | some (SqlVal.str s) => (pyFloat? s).getD 0

/-- C6 counterexample: in the prepaper agent, a present but non-parseable
realized_pnl value coerces to 0.0 — it is not derived from
`(exit - entry) * qty * multiplier` (which here equals 100). -/
theorem realized_fallback_counterexample :
    agentRealized (some (SqlVal.str "abc")) 1 2 1 100 = 0 ∧
    ((2:ℚ) - 1) * 1 * 100 = 100 ∧
    agentRealized (some (SqlVal.str "abc")) 1 2 1 100 ≠ ((2:ℚ) - 1) * 1 * 100 := by
  have h1 : agentRealized (some (SqlVal.str "abc")) 1 2 1 100 = 0 := by
    have hp : pyFloat? "abc" = none := by decide
    simp [agentRealized, hp]
  refine ⟨h1, by norm_num, ?_⟩
  rw [h1]
  norm_num

/-- C6 (amended): a parseable numeric realized_pnl value (a stored number,
or — in the agent — a numeric string) is used verbatim; an absent column or
NULL value derives `(exit - entry) * qty * multiplier`; a present
non-parseable string coerces to 0.0 in pm212_prepaper_agent.py, while in
pm212_audit.py any string value aborts the run. -/
theorem realized_resolution_spec (pin pout qty mult q : ℚ) (s : String) :
    agentRealized none pin pout qty mult = (pout - pin) * qty * mult ∧
    agentRealized (some SqlVal.null) pin pout qty mult = (pout - pin) * qty * mult ∧
    agentRealized (some (SqlVal.num q)) pin pout qty mult = q ∧
    (pyFloat? s = some q → agentRealized (some (SqlVal.str s)) pin pout qty mult = q) ∧
    (pyFloat? s = none → agentRealized (some (SqlVal.str s)) pin pout qty mult = 0) ∧
    (∀ t : AuditTrade, t.realized = none ∨ t.realized = some SqlVal.null →
      auditRealized t = some ((t.exit_px - t.entry_px) * t.qty * t.mult)) ∧
    (∀ t : AuditTrade, t.realized = some (SqlVal.num q) → auditRealized t = some q) ∧
    (∀ t : AuditTrade, t.realized = some (SqlVal.str s) → auditRealized t = none) := by
  refine ⟨rfl, rfl, rfl, ?_, ?_, ?_, ?_, ?_⟩
  · intro hp
    simp [agentRealized, hp]
  · intro hp
    simp [agentRealized, hp]
  · intro t ht
    rcases ht with h | h <;> simp [auditRealized, h]
  · intro t ht
    simp [auditRealized, ht]
  · intro t ht
    simp [auditRealized, ht]

theorem realized_resolution_spec_witness :
    (pyFloat? "7" = some 7 ∧
      agentRealized (some (SqlVal.str "7")) 1 2 3 100 = 7) ∧
    (pyFloat? "abc" = none ∧
      agentRealized (some (SqlVal.str "abc")) 1 2 3 100 = 0) ∧
    auditRealized ⟨none, none, none, 1, 2, 3, 0, 100, none⟩ = some ((2 - 1) * 3 * 100) ∧
    auditRealized ⟨none, none, none, 1, 2, 3, 0, 100, some (SqlVal.num 7)⟩ = some 7 ∧
    auditRealized ⟨none, none, none, 1, 2, 3, 0, 100, some (SqlVal.str "7")⟩ = none := by
  have h7 : pyFloat? "7" = some 7 := by
    simp [pyFloat?, splitSign, digitsToNat]
  refine ⟨⟨h7, (realized_resolution_spec 1 2 3 100 7 "7").2.2.2.1 h7⟩,
    ⟨by decide, (realized_resolution_spec 1 2 3 100 7 "abc").2.2.2.2.1 (by decide)⟩,
    (realized_resolution_spec 1 2 3 100 7 "7").2.2.2.2.2.1 _ (Or.inl rfl),
    (realized_resolution_spec 1 2 3 100 7 "7").2.2.2.2.2.2.1 _ rfl,
    (realized_resolution_spec 1 2 3 100 7 "7").2.2.2.2.2.2.2 _ rfl⟩

/-- `defaultdict(float)` accumulation keyed by day, insertion-ordered. -/
def addToDay (m : List (ℤ × ℚ)) (d : ℤ) (v : ℚ) : List (ℤ × ℚ) :=
  match m with
  | [] => [(d, v)]
  | (d1, w) :: rest => if d1 = d then (d1, w + v) :: rest else (d1, w) :: addToDay rest d v

/-- The per-trade accumulation loop of `pnl_with_slip` (pm212_audit.py lines
198-210): state is `(day_p, wins, losses, gross_win, gross_loss)`; note that
wins/losses/gross sums are accumulated per trade, not per day.  `none` when
a trade's realized value is a string (TypeError aborts the run). -/
def auditSlipFold (per : ℚ) :
    List AuditTrade → List (ℤ × ℚ) × ℕ × ℕ × ℚ × ℚ →
      Option (List (ℤ × ℚ) × ℕ × ℕ × ℚ × ℚ)
  | [], acc => some acc
  | t :: rest, (m, w, l, gw, gl) =>
    match t.entry_day with
    | none => auditSlipFold per rest (m, w, l, gw, gl)
    | some day =>
      match auditRealized t with
      | none => none
      | some realized =>
        let slip := per * |t.qty| * t.mult
        let r := realized - t.fees - slip
        auditSlipFold per rest
          (addToDay m day r,
           (if r > 0 then w + 1 else w),
           (if r < 0 then l + 1 else l),
           (if r > 0 then gw + r else gw),
           (if r < 0 then gl + |r| else gl))

/-- Return value of `pnl_with_slip` (pm212_audit.py lines 211-214). -/
structure SlipResult where
  profit_factor : Option ℚ
  wins : ℕ
  losses : ℕ
  total_days : ℕ
  net_sum : ℚ
deriving DecidableEq

/-- `pnl_with_slip` (pm212_audit.py lines 194-214): penalize each trade by
`per_contract * |qty| * mult`, accumulate per-trade wins/losses and gross
sums, and report `profit_factor = gross_win / gross_loss` — `None` when
`gross_loss == 0`, and also reported as `None` when the ratio is 0.0
(`round(pf,2) if pf else None` tests truthiness). -/
def pnl_with_slip (trades : List AuditTrade) (per_contract : ℚ) : Option SlipResult :=
  match auditSlipFold per_contract trades ([], 0, 0, 0, 0) with
  | none => none
  | some (m, w, l, gw, gl) =>
    let pf : Option ℚ := if gl > 0 then some (gw / gl) else none
    some { profit_factor :=
             match pf with
             | none => none
             | some p => if p = 0 then none else some (pyRound2 p),
           wins := w, losses := l, total_days := m.length,
           net_sum := pyRound2 (m.foldl (fun s dv => s + dv.2) 0) }

/-- `profit_factor` (pm212_prepaper_agent.py lines 78-81): computed over the
per-day series; `None` exactly when the summed losses are 0. -/
def agentProfitFactor (series : List ℚ) : Option ℚ :=
  let wins := (series.filter (fun x => x > 0)).sum
  let losses := |(series.filter (fun x => x < 0)).sum|
  if losses > 0 then some (wins / losses) else none

/-- The per-trade daily accumulation of `pf_with_slip`
(pm212_prepaper_agent.py lines 215-231). -/
def agentSlipFold (cents : ℚ) : List RawTrade → List (ℤ × ℚ) → Option (List (ℤ × ℚ))
  | [], m => some m
  | r :: rest, m =>
    match to_dtAgent r.entry_t with
    | none => agentSlipFold cents rest m
    | some day =>
      match pyFloatOr r.qty 0, pyFloatOr r.mult 100, pyFloatOr r.entry_px 0,
            pyFloatOr r.exit_px 0, pyFloatOr r.fees 0 with
      | some qty, some mult, some pin, some pout, some fees =>
        let realized := agentRealized r.realized pin pout qty mult
        let slip := cents * |qty| * mult
        agentSlipFold cents rest (addToDay m day (realized - fees - slip))
      | _, _, _, _, _ => none

/-- Return value of `pf_with_slip` (pm212_prepaper_agent.py line 234). -/
structure AgentSlip where
  pf : Option ℚ
  net_sum : ℚ
deriving DecidableEq

/-- `pf_with_slip` (pm212_prepaper_agent.py lines 214-234): per-day series
in date order, profit factor over it; `round(pf,2) if pf else None` again
maps both `None` and 0.0 to null. -/
def pf_with_slip (rows : List RawTrade) (cents : ℚ) : Option AgentSlip :=
  match agentSlipFold cents rows [] with
  | none => none
  | some m =>
    let series := (m.mergeSort (fun a b => decide (a.1 ≤ b.1))).map (fun dv => dv.2)
    match agentProfitFactor series with
    | none => some { pf := none, net_sum := pyRound2 series.sum }
    | some p =>
      some { pf := if p = 0 then none else some (pyRound2 p),
             net_sum := pyRound2 series.sum }

theorem roundHalfEven_intCast (n : ℤ) : roundHalfEven (n : ℚ) = n := by
  unfold roundHalfEven
  rw [Int.floor_intCast]
  norm_num

theorem pyRound2_int (n : ℤ) : pyRound2 (n : ℚ) = n := by
  unfold pyRound2
  have h : ((n : ℚ) * 100) = ((n * 100 : ℤ) : ℚ) := by push_cast; ring
  rw [h, roundHalfEven_intCast]
  push_cast
  ring

/-- C3 (code bug): pm212_audit.py computes the slippage-stressed profit
factor from per-trade nets, although the spec — and the script's own output
note "Profit factor is computed on daily aggregates after slippage
penalties" — prescribe per-day values.  Two same-day trades netting +10 and
-5 give one day at +5: no losing day, so the per-day profit factor is
undefined (and the agent reports null on the equivalent store), yet
pm212_audit.py reports 2.0 with one counted loss.  The third conjunct shows
the agent's reported value is also null for a store whose only day is a
losing day (a profit factor of 0.0 is falsy), so "null iff zero losing
days" fails for the agent's report too. -/
theorem slip_profit_factor_evidence :
    pnl_with_slip
      [⟨some 0, some (SqlVal.num 0), none, 0, 0, 0, 0, 100, some (SqlVal.num 10)⟩,
       ⟨some 0, some (SqlVal.num 0), none, 0, 0, 0, 0, 100, some (SqlVal.num (-5))⟩]
      (5/100) = some ⟨some 2, 1, 1, 1, 5⟩ ∧
    pf_with_slip
      [⟨none, some (SqlVal.num 0), none, none, none, none, none, none,
        some (SqlVal.num 10)⟩,
       ⟨none, some (SqlVal.num 0), none, none, none, none, none, none,
        some (SqlVal.num (-5))⟩] (5/100) = some ⟨none, 5⟩ ∧
    pf_with_slip
      [⟨none, some (SqlVal.num 0), none, none, none, none, none, none,
        some (SqlVal.num (-5))⟩] (5/100) = some ⟨none, -5⟩ := by
  have hday : to_dtAgent (some (SqlVal.num 0)) = some 0 := by
    simp [to_dtAgent, epochDay, pyTrunc]
  have h2 : pyRound2 2 = 2 := by
    have := pyRound2_int 2
    push_cast at this
    simpa using this
  have h5 : pyRound2 5 = 5 := by
    have := pyRound2_int 5
    push_cast at this
    simpa using this
  have hm5 : pyRound2 (-5) = -5 := by
    have := pyRound2_int (-5)
    push_cast at this
    simpa using this
  refine ⟨?_, ?_, ?_⟩
  · norm_num [pnl_with_slip, auditSlipFold, auditRealized, addToDay, h2, h5]
  · norm_num [pf_with_slip, agentSlipFold, hday, pyFloatOr, agentRealized, addToDay,
      agentProfitFactor, h5]
  · norm_num [pf_with_slip, agentSlipFold, hday, pyFloatOr, agentRealized, addToDay,
      agentProfitFactor, hm5]

/-- Threshold configuration (pm212_prepaper_agent.py lines 22-28). -/
structure Thresholds where
  nbbo_within_pct : ℚ
  mid_rate_max_pct : ℚ
  pf_5c_min : ℚ
  pf_10c_min : ℚ
  guardrail_breaches_max : ℕ
deriving DecidableEq

/-- `nbbo_stats` (pm212_prepaper_agent.py lines 206-211). -/
structure NbboStats where
  checked : ℕ
  within : ℕ
  pct_within : Option ℚ
  pct_mid_or_better : Option ℚ
deriving DecidableEq

/-- Condition 2 of the decision block: NBBO stats were computed,
`pct_within` is not None and falls below the threshold. -/
def condNbboWithin (th : Thresholds) (nbbo : Option NbboStats) : Bool :=
  match nbbo with
  | none => false
  | some st =>
    match st.pct_within with
    | none => false
    | some p => decide (p < th.nbbo_within_pct)

/-- Condition 3 of the decision block: mid-or-better rate above its cap. -/
def condNbboMid (th : Thresholds) (nbbo : Option NbboStats) : Bool :=
  match nbbo with
  | none => false
  | some st =>
    match st.pct_mid_or_better with
    | none => false
    | some p => decide (th.mid_rate_max_pct < p)

/-- Conditions 4 and 5: a computed stressed profit factor below its
minimum. -/
def condPf (p? : Option ℚ) (minv : ℚ) : Bool :=
  match p? with
  | none => false
  | some p => decide (p < minv)

/-- The five threshold conditions of the decision block
(pm212_prepaper_agent.py lines 240-253) in source order, each with its
reason string. -/
def rejectConds (th : Thresholds) (breachCount : ℕ) (nbbo : Option NbboStats)
    (s5 s10 : AgentSlip) : List (Bool × String) :=
  [(decide (th.guardrail_breaches_max < breachCount), "Guardrail breaches present"),
   (condNbboWithin th nbbo, "NBBO coverage below threshold"),
   (condNbboMid th nbbo, "Mid-or-better rate too high (unrealistic fills)"),
   (condPf s5.pf th.pf_5c_min, "PF under $0.05 slippage below threshold"),
   (condPf s10.pf th.pf_10c_min, "PF under $0.10 slippage below threshold")]

/-- The decision block: start at `APPROVE` with no reasons; each violated
condition sets the decision to `REJECT` and appends its reason string. -/
def decisionEngine (th : Thresholds) (breachCount : ℕ) (nbbo : Option NbboStats)
    (s5 s10 : AgentSlip) : String × List String :=
  (rejectConds th breachCount nbbo s5 s10).foldl
    (fun st c => if c.1 then ("REJECT", st.2 ++ [c.2]) else st) ("APPROVE", [])

theorem decision_foldl_spec (cs : List (Bool × String)) :
    ∀ st : String × List String,
      (cs.foldl (fun a c => if c.1 then ("REJECT", a.2 ++ [c.2]) else a) st).2 =
        st.2 ++ cs.filterMap (fun c => if c.1 then some c.2 else none) ∧
      (cs.foldl (fun a c => if c.1 then ("REJECT", a.2 ++ [c.2]) else a) st).1 =
        (if cs.any (fun c => c.1) then "REJECT" else st.1) := by
  induction cs with
  | nil => intro st; simp
  | cons c rest ih =>
    intro st
    rw [List.foldl_cons, List.any_cons, List.filterMap_cons]
    cases hc : c.1 <;> simp [ih]
    rw [Bool.false_or]

theorem filterMap_ne_nil_of_any (cs : List (Bool × String))
    (h : cs.any (fun c => c.1) = true) :
    cs.filterMap (fun c => if c.1 then some c.2 else none) ≠ [] := by
  induction cs with
  | nil => simp at h
  | cons c rest ih =>
    cases hc : c.1
    · simp only [List.any_cons, hc, Bool.false_or] at h
      simpa [hc] using ih h
    · simp [hc]

/-- C9: the verdict is `REJECT` iff some threshold condition is violated,
the reasons are exactly the violated conditions' strings in source order,
and a `REJECT` always carries at least one reason string. -/
theorem decision_reject_reasons (th : Thresholds) (bc : ℕ) (nbbo : Option NbboStats)
    (s5 s10 : AgentSlip) :
    (decisionEngine th bc nbbo s5 s10).2 =
      (rejectConds th bc nbbo s5 s10).filterMap
        (fun c => if c.1 then some c.2 else none) ∧
    ((decisionEngine th bc nbbo s5 s10).1 = "REJECT" ↔
      (rejectConds th bc nbbo s5 s10).any (fun c => c.1)) ∧
    ((decisionEngine th bc nbbo s5 s10).1 = "REJECT" →
      (decisionEngine th bc nbbo s5 s10).2 ≠ []) := by
  have h := decision_foldl_spec (rejectConds th bc nbbo s5 s10) ("APPROVE", [])
  refine ⟨by simpa [decisionEngine] using h.1, ?_, ?_⟩
  · unfold decisionEngine
    rw [h.2]
    constructor
    · intro hr
      by_contra hno
      rw [if_neg (by simpa using hno)] at hr
      simp at hr
    · intro ha
      rw [if_pos ha]
  · intro hr
    have hany : (rejectConds th bc nbbo s5 s10).any (fun c => c.1) = true := by
      by_contra hno
      unfold decisionEngine at hr
      rw [h.2, if_neg (by simpa using hno)] at hr
      simp at hr
    have := filterMap_ne_nil_of_any _ hany
    unfold decisionEngine
    rw [h.1]
    simpa using this

theorem decision_reject_reasons_witness :
    (decisionEngine ⟨98, 60, 13/10, 23/20, 0⟩ 1 none ⟨none, 0⟩ ⟨none, 0⟩).1 =
      "REJECT" ∧
    (decisionEngine ⟨98, 60, 13/10, 23/20, 0⟩ 1 none ⟨none, 0⟩ ⟨none, 0⟩).2 ≠ [] := by
  have hr : (decisionEngine ⟨98, 60, 13/10, 23/20, 0⟩ 1 none ⟨none, 0⟩ ⟨none, 0⟩).1 =
      "REJECT" := by
    simp [decisionEngine, rejectConds, condNbboWithin, condNbboMid, condPf]
  exact ⟨hr,
    (decision_reject_reasons ⟨98, 60, 13/10, 23/20, 0⟩ 1 none ⟨none, 0⟩ ⟨none, 0⟩).2.2 hr⟩

/-- Agent configuration: thresholds and execution tolerance
(pm212_prepaper_agent.py lines 19-43; the slippage penalties are hard-coded
to 0.05 and 0.10 at lines 236-237). -/
structure AgentConfig where
  th : Thresholds
  tolerance : ℚ
deriving DecidableEq

/-- The built-in default configuration (lines 20-32). -/
def defaultConfig : AgentConfig :=
  ⟨⟨98, 60, 13/10, 23/20, 0⟩, 1/100⟩

/-- A quotes-table row after schema resolution. -/
structure QuoteRow where
  sym : SqlVal
  ts : SqlVal
  bid : SqlVal
  ask : SqlVal
deriving DecidableEq

/-- The daily-P&L accumulation (pm212_prepaper_agent.py lines 124-140):
rows without a parseable entry timestamp are skipped; numeric coercions may
abort the run. -/
def agentDailyFold : List RawTrade → List (ℤ × ℚ) → Option (List (ℤ × ℚ))
  | [], m => some m
  | r :: rest, m =>
    match to_dtAgent r.entry_t with
    | none => agentDailyFold rest m
    | some day =>
      match pyFloatOr r.qty 0, pyFloatOr r.mult 100, pyFloatOr r.entry_px 0,
            pyFloatOr r.exit_px 0, pyFloatOr r.fees 0 with
      | some qty, some mult, some pin, some pout, some fees =>
        agentDailyFold rest
          (addToDay m day (agentRealized r.realized pin pout qty mult - fees))
      | _, _, _, _, _ => none

/-- Symbol-map construction (pm212_prepaper_agent.py lines 170-173): every
quote row is coerced to `(sym, str(ts), float(bid or 0), float(ask or 0))`,
so a non-numeric text bid/ask anywhere aborts the run. -/
def coerceQuoteRow (q : QuoteRow) : Option (SqlVal × String × ℚ × ℚ) :=
  match pyFloatOrVal q.bid 0, pyFloatOrVal q.ask 0 with
  | some b, some a => some (q.sym, pyStr q.ts, b, a)
  | _, _ => none

def buildSymmap (qrows : List QuoteRow) : Option (List (SqlVal × String × ℚ × ℚ)) :=
  qrows.mapM coerceQuoteRow

/-- `symmap[sym]`: that symbol's quotes in row order, stably sorted by
timestamp string (line 173). -/
def symQuotes (m : List (SqlVal × String × ℚ × ℚ)) (sym : SqlVal) :
    List (String × ℚ × ℚ) :=
  ((m.filter (fun e => e.1 = sym)).map (fun e => e.2)).mergeSort
    (fun a b => strLe a.1 b.1)

/-- The per-trade NBBO check loop of the agent (lines 187-205): the entry
price is coerced first (it can abort); a trade with falsy symbol/timestamp
or an unresolved entry-price column is skipped; one with no matching quote
is skipped; otherwise it is classified. -/
def agentNbboFold (tol : ℚ) (m : List (SqlVal × String × ℚ × ℚ)) :
    List RawTrade → NbboAcc → Option NbboAcc
  | [], a => some a
  | r :: rest, a =>
    match r.entry_px with
    | none => agentNbboFold tol m rest a
    | some pxv =>
      match pyFloatOrVal pxv 0 with
      | none => none
      | some px =>
        match r.symbol, r.entry_t with
        | some sv, some tv =>
          if sv.truthy && tv.truthy then
            match lastBefore (fun q => q.1) (symQuotes m sv) (pyStr tv) with
            | none => agentNbboFold tol m rest a
            | some q => agentNbboFold tol m rest (agentClassify tol a px q.2.1 q.2.2)
          else agentNbboFold tol m rest a
        | _, _ => agentNbboFold tol m rest a

/-- The agent's NBBO statistics (lines 206-211). -/
def agentNbbo (tol : ℚ) (rows : List RawTrade) (qrows : List QuoteRow) :
    Option NbboStats :=
  match buildSymmap qrows with
  | none => none
  | some m =>
    match agentNbboFold tol m rows ⟨0, 0, 0, 0⟩ with
    | none => none
    | some a =>
      some { checked := a.checked, within := a.within,
             pct_within :=
               if a.checked ≠ 0 then
                 some (pyRound2 (100 * (a.within : ℚ) / (a.checked : ℚ)))
               else none,
             pct_mid_or_better :=
               if a.checked ≠ 0 then
                 some (pyRound2 (100 * (a.mid_or_better : ℚ) / (a.checked : ℚ)))
               else none }

/-- The NBBO stage of the pipeline: skipped — reported as absent, not an
error — when the quotes table or a needed column is unresolved (`quotes =
none`); otherwise computed, with `none` for an aborted run. -/
def agentNbboStage (tol : ℚ) (rows : List RawTrade)
    (quotes : Option (List QuoteRow)) : Option (Option NbboStats) :=
  match quotes with
  | none => some none
  | some qrows =>
    match agentNbbo tol rows qrows with
    | none => none
    | some st => some (some st)

/-- The agent's summary document (pm212_prepaper_agent.py lines 255-266),
minus the input-path echo: `date_generated` holds the wall-clock timestamp
`datetime.utcnow().isoformat() + "Z"`, modelled as the run's `now` input. -/
structure AgentSummary where
  date_generated : String
  thresholds : Thresholds
  guardrail_breach_count : ℕ
  nbbo_stats : Option NbboStats
  slip_5 : AgentSlip
  slip_10 : AgentSlip
  decision : String
  reasons : List String
deriving DecidableEq

/-- The whole agent pipeline over a store (trade rows; quote rows when the
quotes table and its columns resolved), a configuration, and the wall-clock
time `now` read during the run. -/
def agentSummary (rows : List RawTrade) (quotes : Option (List QuoteRow))
    (cfg : AgentConfig) (now : String) : Option AgentSummary :=
  match agentDailyFold rows [] with
  | none => none
  | some daily =>
    let breaches :=
      (guardScan agentEps (daily.mergeSort (fun a b => decide (a.1 ≤ b.1)))).2
    match agentNbboStage cfg.tolerance rows quotes with
    | none => none
    | some nbbo =>
      match pf_with_slip rows (5/100), pf_with_slip rows (10/100) with
      | some s5, some s10 =>
        let dr := decisionEngine cfg.th breaches.length nbbo s5 s10
        some { date_generated := now, thresholds := cfg.th,
               guardrail_breach_count := breaches.length, nbbo_stats := nbbo,
               slip_5 := s5, slip_10 := s10, decision := dr.1, reasons := dr.2 }
      | _, _ => none

/-- C7 counterexample: two runs of the agent pipeline on the same (empty)
store with the same default configuration but at different wall-clock times
produce different summary documents — `date_generated` records the run
time, so the outputs are not identical. -/
theorem determinism_counterexample :
    agentSummary [] none defaultConfig "2026-10-12T00:00:00Z" ≠
      agentSummary [] none defaultConfig "2026-10-12T00:00:01Z" := by
  have h0 : pyRound2 0 = 0 := by
    have := pyRound2_int 0
    push_cast at this
    simpa using this
  norm_num [agentSummary, agentDailyFold, agentNbboStage, guardScan, pf_with_slip,
    agentSlipFold, agentProfitFactor, decisionEngine, rejectConds, condNbboWithin,
    condNbboMid, condPf, defaultConfig, h0]
  decide

/-- C7 (amended): the agent pipeline is deterministic in everything except
`date_generated`: two completed runs on the same store and configuration
agree on thresholds, guardrail breach count, NBBO stats, both slippage
results, the decision and the reasons, while `date_generated` records each
run's own wall-clock time.  (pm212_audit.py writes no timestamp; its summary
is a pure function of store and configuration.) -/
theorem determinism_modulo_timestamp (rows : List RawTrade)
    (quotes : Option (List QuoteRow)) (cfg : AgentConfig) (n1 n2 : String)
    (s1 s2 : AgentSummary) (h1 : agentSummary rows quotes cfg n1 = some s1)
    (h2 : agentSummary rows quotes cfg n2 = some s2) :
    s1.thresholds = s2.thresholds ∧
    s1.guardrail_breach_count = s2.guardrail_breach_count ∧
    s1.nbbo_stats = s2.nbbo_stats ∧ s1.slip_5 = s2.slip_5 ∧ s1.slip_10 = s2.slip_10 ∧
    s1.decision = s2.decision ∧ s1.reasons = s2.reasons ∧
    s1.date_generated = n1 ∧ s2.date_generated = n2 := by
  cases hd : agentDailyFold rows [] with
  | none => rw [agentSummary, hd] at h1; exact absurd h1 (by simp)
  | some daily =>
    cases hn : agentNbboStage cfg.tolerance rows quotes with
    | none => rw [agentSummary, hd] at h1; simp [hn] at h1
    | some nbbo =>
      cases h5 : pf_with_slip rows (5/100) with
      | none => rw [agentSummary, hd] at h1; simp [hn, h5] at h1
      | some s5 =>
        cases h10 : pf_with_slip rows (10/100) with
        | none => rw [agentSummary, hd] at h1; simp [hn, h5, h10] at h1
        | some s10 =>
          rw [agentSummary, hd] at h1 h2
          simp only [hn, h5, h10, Option.some.injEq] at h1 h2
          rw [← h1, ← h2]
          simp

theorem determinism_modulo_timestamp_witness :
    agentSummary [] none defaultConfig "A" =
      some ⟨"A", defaultConfig.th, 0, none, ⟨none, 0⟩, ⟨none, 0⟩, "APPROVE", []⟩ ∧
    agentSummary [] none defaultConfig "B" =
      some ⟨"B", defaultConfig.th, 0, none, ⟨none, 0⟩, ⟨none, 0⟩, "APPROVE", []⟩ ∧
    (⟨"A", defaultConfig.th, 0, none, ⟨none, 0⟩, ⟨none, 0⟩, "APPROVE", []⟩ :
        AgentSummary).decision =
      (⟨"B", defaultConfig.th, 0, none, ⟨none, 0⟩, ⟨none, 0⟩, "APPROVE", []⟩ :
        AgentSummary).decision := by
  have h0 : pyRound2 0 = 0 := by
    have := pyRound2_int 0
    push_cast at this
    simpa using this
  have hA : agentSummary [] none defaultConfig "A" =
      some ⟨"A", defaultConfig.th, 0, none, ⟨none, 0⟩, ⟨none, 0⟩, "APPROVE", []⟩ := by
    norm_num [agentSummary, agentDailyFold, agentNbboStage, guardScan, pf_with_slip,
      agentSlipFold, agentProfitFactor, decisionEngine, rejectConds, condNbboWithin,
      condNbboMid, condPf, defaultConfig, h0]
  have hB : agentSummary [] none defaultConfig "B" =
      some ⟨"B", defaultConfig.th, 0, none, ⟨none, 0⟩, ⟨none, 0⟩, "APPROVE", []⟩ := by
    norm_num [agentSummary, agentDailyFold, agentNbboStage, guardScan, pf_with_slip,
      agentSlipFold, agentProfitFactor, decisionEngine, rejectConds, condNbboWithin,
      condNbboMid, condPf, defaultConfig, h0]
  exact ⟨hA, hB,
    (determinism_modulo_timestamp [] none defaultConfig "A" "B" _ _ hA hB).2.2.2.2.2.1⟩
